import Mathlib

/-!
Shallow embedding of the APEX-2026 trading pipeline: the `Guard` risk
analyzer (src/detectors/Guard.ts), the `DecisionCore` orchestrator and
the `MarketScanner` event ingestor (src/ingestors/MarketScanner.ts).

Network reads are modelled as oracle fields of an environment record;
each `try { ... } catch { ... }` of the source becomes an explicit match
on an `Except` value, so a `.error` oracle result models the interior of
the `try` block throwing.  JavaScript numbers are modelled as `ℚ`,
bigint-derived percentages and counters as `Nat`.
-/

namespace Apex

/-- Chain mint record as returned by `getMint`: only the two authority
fields that `Guard.analyzeToken` reads. -/
structure MintInfo where
  mintAuthority : Option String
  freezeAuthority : Option String
  deriving DecidableEq

/-- Result shape of `Guard.checkRaydiumLiquidity`. -/
structure LiquidityInfo where
  hasLiquidity : Bool
  liquiditySol : Option ℚ
  deriving DecidableEq

/-- Oracle environment for one `Guard.analyzeToken` call.  Each field is
the outcome of the effectful interior of one check: `.error` means that
interior threw, `.ok` carries the value it computed. -/
structure GuardEnv where
  getMintResult : Except String MintInfo
  top10Inner : Except String Nat
  honeypotInner : Except String Bool
  liquidityInner : Except String LiquidityInfo
  lpBurnInner : Except String Nat

/-- The `details` field of a `SecurityReport` (src/types/index.ts). -/
structure SecurityDetails where
  mintRenounced : Bool
  freezeDisabled : Bool
  lpBurnedPercent : Nat
  top10HoldersPercent : Nat
  isHoneypot : Bool
  liquiditySol : Option ℚ
  hasLiquidity : Bool
  deriving DecidableEq

/-- The `SecurityReport` produced by `Guard.analyzeToken`
(src/types/index.ts). -/
structure SecurityReport where
  mint : String
  isSafe : Bool
  riskScore : Nat
  flags : List String
  details : SecurityDetails
  deriving DecidableEq

namespace Guard

/-- Model of `Guard.calculateTop10HoldersPercent`: the whole body is one
`try` block; on error the catch returns 0 (permissive default). -/
def calculateTop10HoldersPercent (env : GuardEnv) : Nat :=
  match env.top10Inner with
  | .ok p => p
  | .error _ => 0

/-- Model of `Guard.detectHoneypot`: every failure path of the body
(returns inside inner catches and the outer catch) yields `true`. -/
def detectHoneypot (env : GuardEnv) : Bool :=
  match env.honeypotInner with
  | .ok b => b
  | .error _ => true

/-- Model of `Guard.checkRaydiumLiquidity`: on error the catch returns
`{ hasLiquidity: false }`. -/
def checkRaydiumLiquidity (env : GuardEnv) : LiquidityInfo :=
  match env.liquidityInner with
  | .ok i => i
  | .error _ => { hasLiquidity := false, liquiditySol := none }

/-- Model of `Guard.calculateLPBurnedPercent`: on error the catch
returns 0. -/
def calculateLPBurnedPercent (env : GuardEnv) : Nat :=
  match env.lpBurnInner with
  | .ok p => p
  | .error _ => 0

/-- JavaScript truthiness of `liquidityInfo.liquiditySol &&
liquidityInfo.liquiditySol < 5`: undefined and 0 are both falsy. -/
def lowLiquidity (liq : LiquidityInfo) : Bool :=
  match liq.liquiditySol with
  | some v => v != 0 && v < 5
  | none => false

/-- Uncapped risk score accumulated by `Guard.analyzeToken` (lines
63-103): freeze not revoked +50, top-10 concentration over 50% +30,
honeypot +100, no pool +40 / low liquidity +20. -/
def riskScoreRaw (env : GuardEnv) (mintInfo : MintInfo) : Nat :=
  (if mintInfo.freezeAuthority.isNone then 0 else 50)
  + (if calculateTop10HoldersPercent env > 50 then 30 else 0)
  + (if detectHoneypot env then 100 else 0)
  + (if !(checkRaydiumLiquidity env).hasLiquidity then 40
     else if lowLiquidity (checkRaydiumLiquidity env) then 20 else 0)

/-- Flags accumulated by `Guard.analyzeToken`, one tag per failed
boolean check, in source order. -/
def flagsOf (env : GuardEnv) (mintInfo : MintInfo) : List String :=
  (if mintInfo.mintAuthority.isNone then [] else ["MINT_AUTHORITY_NOT_RENOUNCED"])
  ++ (if mintInfo.freezeAuthority.isNone then [] else ["FREEZE_AUTHORITY_NOT_DISABLED"])
  ++ (if calculateTop10HoldersPercent env > 50 then ["HIGH_CONCENTRATION"] else [])
  ++ (if detectHoneypot env then ["HONEYPOT_DETECTED"] else [])
  ++ (if !(checkRaydiumLiquidity env).hasLiquidity then ["NO_LIQUIDITY_POOL"]
      else if lowLiquidity (checkRaydiumLiquidity env) then ["LOW_LIQUIDITY"] else [])

/-- The `SecurityReport` that `Guard.analyzeToken` builds on lines
108-124 once the authority read has succeeded with `mintInfo`. -/
def reportOf (mint : String) (env : GuardEnv) (mintInfo : MintInfo) : SecurityReport :=
  { mint := mint
    isSafe := decide (riskScoreRaw env mintInfo < 50) && !(detectHoneypot env)
      && mintInfo.mintAuthority.isNone && mintInfo.freezeAuthority.isNone
      && (checkRaydiumLiquidity env).hasLiquidity
    riskScore := min (riskScoreRaw env mintInfo) 100
    flags := flagsOf env mintInfo
    details :=
      { mintRenounced := mintInfo.mintAuthority.isNone
        freezeDisabled := mintInfo.freezeAuthority.isNone
        lpBurnedPercent := calculateLPBurnedPercent env
        top10HoldersPercent := calculateTop10HoldersPercent env
        isHoneypot := detectHoneypot env
        liquiditySol := (checkRaydiumLiquidity env).liquiditySol
        hasLiquidity := (checkRaydiumLiquidity env).hasLiquidity } }

/-- Model of `Guard.analyzeToken` (src/detectors/Guard.ts lines 60-125).
The `await getMint(...)` on line 66 is not inside any `try`, so its
failure propagates (the `.error` branch); every other check degrades via
its own catch. -/
def analyzeToken (mint : String) (env : GuardEnv) : Except String SecurityReport :=
  match env.getMintResult with
  | .error e => .error e
  | .ok mintInfo => .ok (reportOf mint env mintInfo)

/-- Environment in which the authority read itself (the `getMint` call
on line 66 of Guard.ts) throws while every other check succeeds. -/
def envMintReadThrows : GuardEnv :=
  { getMintResult := .error "getMint failed"
    top10Inner := .ok 0
    honeypotInner := .ok false
    liquidityInner := .ok { hasLiquidity := true, liquiditySol := some 10 }
    lpBurnInner := .ok 0 }

/-- Environment in which the authority read succeeds but the interior of
all four subsidiary checks throws. -/
def envChecksThrow : GuardEnv :=
  { getMintResult := .ok { mintAuthority := none, freezeAuthority := none }
    top10Inner := .error "timeout"
    honeypotInner := .error "timeout"
    liquidityInner := .error "timeout"
    lpBurnInner := .error "timeout" }

end Guard

/-- Token metadata attached to a market event (src/types/index.ts). -/
structure TokenMetadata where
  mint : String
  symbol : String
  name : String
  decimals : Nat
  deriving DecidableEq

/-- The `MarketEvent` emitted by the ingestor (src/types/index.ts). -/
structure MarketEvent where
  token : TokenMetadata
  poolId : String
  initialLiquiditySol : ℚ
  initialPriceUsdc : ℚ
  timestamp : Nat
  deriving DecidableEq

/-- Priority classes of a scored token. -/
inductive Priority
  | HIGH
  | MEDIUM
  | LOW
  deriving DecidableEq

/-- The `ScoredToken` built by `DecisionCore.processToken` (the
always-`null` `social` field is omitted). -/
structure ScoredToken where
  event : MarketEvent
  security : SecurityReport
  finalScore : ℤ
  priority : Priority
  deriving DecidableEq

namespace DecisionCore

/-- Configuration of the `DecisionCore` (constructor defaults
`minLiquidity = 5`, `maxRiskScore = 50`). -/
structure Config where
  minLiquidity : ℚ
  maxRiskScore : Nat

/-- Counter state owned by the `DecisionCore`. -/
structure Stats where
  tokensProcessed : Nat
  tokensAccepted : Nat
  tokensRejected : Nat
  deriving DecidableEq

/-- Snapshot returned by `DecisionCore.getStats`. -/
structure StatsView where
  tokensProcessed : Nat
  tokensAccepted : Nat
  tokensRejected : Nat
  acceptanceRate : ℚ
  deriving DecidableEq

/-- JavaScript `Math.round`: round half toward positive infinity. -/
def jsRound (q : ℚ) : ℤ := Int.floor (q + 1/2)

/-- Model of `DecisionCore.calculateFinalScore` (part_001 lines
301-335): `max(0, 40 − riskScore·0.4)` + `min(30, liquidity·0.3)` + 15
when both authorities revoked + 10 when LP burn > 90% (else 5 when
> 50%) + 5 on the fast path; rounded then capped at 100. -/
def calculateFinalScore (event : MarketEvent) (security : SecurityReport)
    (isFastCheck : Bool) : ℤ :=
  let securityScore : ℚ := max 0 (40 - (security.riskScore : ℚ) * (0.4 : ℚ))
  let liquidityScore : ℚ := min 30 (event.initialLiquiditySol * (0.3 : ℚ))
  let score : ℚ := securityScore + liquidityScore
    + (if security.details.mintRenounced && security.details.freezeDisabled then 15 else 0)
    + (if security.details.lpBurnedPercent > 90 then 10
       else if security.details.lpBurnedPercent > 50 then 5 else 0)
    + (if isFastCheck then 5 else 0)
  min 100 (jsRound score)

/-- Model of `DecisionCore.determinePriority` (part_001 lines 340-358). -/
def determinePriority (finalScore : ℤ) (liquiditySol : ℚ)
    (isFastCheck : Bool) : Priority :=
  if isFastCheck ∧ 70 ≤ finalScore then .HIGH
  else if 80 ≤ finalScore ∨ (50 ≤ liquiditySol ∧ 70 ≤ finalScore) then .HIGH
  else if 70 ≤ finalScore then .MEDIUM
  else .LOW

/-- Model of `DecisionCore.rejectToken` (part_001 lines 363-367): bumps
the rejected counter; the reason travels in the `tokenRejected`
emission, modelled in `Outcome`. -/
def rejectToken (st : Stats) : Stats :=
  { st with tokensRejected := st.tokensRejected + 1 }

/-- Observable outcome of one `processToken` call: a `tokenRejected`
emission with its reason, or a `readyToSnipe` emission of the scored
token. -/
inductive Outcome
  | rejected (mint : String) (reason : String)
  | accepted (t : ScoredToken)
  deriving DecidableEq

/-- Model of `DecisionCore.processToken` (part_001 lines 230-291).  The
`guardResult` parameter is the outcome of `guard.validateToken`; an
`.error` there is caught by the surrounding `try` and becomes a
rejection.  Returns the updated counters and the observable outcome. -/
def processToken (cfg : Config) (st : Stats) (event : MarketEvent)
    (guardResult : Except String SecurityReport) (isFastCheck : Bool) :
    Stats × Outcome :=
  let st := { st with tokensProcessed := st.tokensProcessed + 1 }
  if event.initialLiquiditySol < cfg.minLiquidity then
    (rejectToken st, .rejected event.token.mint "Liquidité insuffisante")
  else
    match guardResult with
    | .error e => (rejectToken st, .rejected event.token.mint ("Erreur: " ++ e))
    | .ok security =>
      if security.riskScore > cfg.maxRiskScore then
        (rejectToken st, .rejected event.token.mint "Risk score trop élevé")
      else if !security.isSafe then
        (rejectToken st, .rejected event.token.mint "Token non sûr")
      else
        let finalScore := calculateFinalScore event security isFastCheck
        let priority := determinePriority finalScore event.initialLiquiditySol isFastCheck
        let scored : ScoredToken :=
          { event := event, security := security
            finalScore := finalScore, priority := priority }
        if 70 ≤ finalScore ∨ (isFastCheck ∧ 60 ≤ finalScore) then
          ({ st with tokensAccepted := st.tokensAccepted + 1 }, .accepted scored)
        else
          (rejectToken st, .rejected event.token.mint "Score insuffisant")

/-- Model of `DecisionCore.getStats` (part_001 lines 372-387), with the
explicit division-by-zero guard of the source. -/
def getStats (st : Stats) : StatsView :=
  { tokensProcessed := st.tokensProcessed
    tokensAccepted := st.tokensAccepted
    tokensRejected := st.tokensRejected
    acceptanceRate :=
      if st.tokensProcessed > 0
      then ((st.tokensAccepted : ℚ) / (st.tokensProcessed : ℚ)) * 100
      else 0 }

/-- Default orchestrator configuration. -/
def cfg0 : Config := { minLiquidity := 5, maxRiskScore := 50 }

/-- Configuration with the liquidity floor right at the witness event's
liquidity. -/
def cfgW : Config := { minLiquidity := 7, maxRiskScore := 50 }

/-- Fresh counter state. -/
def st0 : Stats := { tokensProcessed := 0, tokensAccepted := 0, tokensRejected := 0 }

/-- Market event used in the score-62 scenarios: 7 SOL of liquidity. -/
def c3Event : MarketEvent :=
  { token := { mint := "TOK62", symbol := "UNKNOWN", name := "Unknown Token", decimals := 9 }
    poolId := "POOL62", initialLiquiditySol := 7, initialPriceUsdc := 0, timestamp := 0 }

/-- Clean report with LP burn 51%: risk score 0, safe.  The standard
path scores the 7-SOL event at 40 + 2.1 + 15 + 5 = 62.1 → 62. -/
def c3SecurityA : SecurityReport :=
  { mint := "TOK62", isSafe := true, riskScore := 0, flags := []
    details :=
      { mintRenounced := true, freezeDisabled := true, lpBurnedPercent := 51
        top10HoldersPercent := 10, isHoneypot := false
        liquiditySol := some 7, hasLiquidity := true } }

/-- Clean report with LP burn 0%: risk score 0, safe.  The fast path
scores the 7-SOL event at 40 + 2.1 + 15 + 5 = 62.1 → 62. -/
def c3SecurityB : SecurityReport :=
  { c3SecurityA with
    details :=
      { mintRenounced := true, freezeDisabled := true, lpBurnedPercent := 0
        top10HoldersPercent := 10, isHoneypot := false
        liquiditySol := some 7, hasLiquidity := true } }

/-- Market event of the clean-asset scenario: 45 SOL of liquidity. -/
def c6Event : MarketEvent :=
  { token := { mint := "CLEAN", symbol := "UNKNOWN", name := "Unknown Token", decimals := 9 }
    poolId := "POOL45", initialLiquiditySol := 45, initialPriceUsdc := 0, timestamp := 0 }

/-- Security report of the clean-asset scenario: risk score 15, both
authorities revoked, LP fully burned. -/
def c6Security : SecurityReport :=
  { mint := "CLEAN", isSafe := true, riskScore := 15, flags := []
    details :=
      { mintRenounced := true, freezeDisabled := true, lpBurnedPercent := 100
        top10HoldersPercent := 0, isHoneypot := false
        liquiditySol := some 45, hasLiquidity := true } }

end DecisionCore

/-- SOL mint address used as the native-unit marker (Guard.ts line 7,
MarketScanner.ts line 12). -/
def SOL_MINT : String := "So11111111111111111111111111111111111111112"

namespace MarketScanner

/-- Configuration slice of the scanner used by the cache and emission
logic (constructor defaults `fastCheckThreshold = 100`,
`cacheSize = 10000`, `cacheTtlMs = 3600000`). -/
structure Config where
  fastCheckThreshold : ℚ
  cacheSize : Nat
  cacheTtlMs : Nat

/-- Entry of the dedup cache (`CacheEntry` in MarketScanner.ts). -/
structure CacheEntry where
  poolId : String
  timestamp : Nat
  deriving DecidableEq

/-- The `processedPools` JS `Map`, modelled as an insertion-ordered
association list (JS `Map` iterates keys in insertion order). -/
abbrev CacheMap := List (String × CacheEntry)

/-- Keys of the dedup cache, oldest first. -/
def cacheKeys (m : CacheMap) : List String := m.map Prod.fst

/-- Model of `MarketScanner.isPoolProcessed` (lines 549-551), the JS
`Map.has`. -/
def isPoolProcessed (m : CacheMap) (poolId : String) : Bool :=
  m.any (fun p => p.1 == poolId)

/-- JS `Map.set`: overwrite in place when the key is present (keeping
its insertion position), append otherwise. -/
def mapSet (m : CacheMap) (k : String) (v : CacheEntry) : CacheMap :=
  if m.any (fun p => p.1 == k) then
    m.map (fun p => if p.1 == k then (k, v) else p)
  else
    m ++ [(k, v)]

/-- Model of `MarketScanner.markPoolProcessed` (lines 556-569): when the
cache has reached `cacheSize`, delete the oldest (first-inserted) key,
then insert the new entry. -/
def markPoolProcessed (cfg : Config) (m : CacheMap) (poolId : String)
    (now : Nat) : CacheMap :=
  let m' := if m.length ≥ cfg.cacheSize then
      match m with
      | [] => ([] : CacheMap)
      | _ :: rest => rest
    else m
  mapSet m' poolId { poolId := poolId, timestamp := now }

/-- Transaction info carried by a Geyser stream message: the log batch
from `meta` and the signature fields the handler consults. -/
structure GeyserTxInfo where
  signature : Option String
  signatures : List String
  logMessages : List String
  deriving DecidableEq

/-- A Geyser stream message; `transaction` may be absent. -/
structure GeyserMsg where
  transaction : Option GeyserTxInfo
  deriving DecidableEq

/-- Substring test modelling JS `String.includes`. -/
def strIncludes (s pat : String) : Bool :=
  s.data.tails.any (fun t => pat.data.isPrefixOf t)

/-- The initialize2 filter on the log batch (lines 274-277). -/
def hasInitialize2 (logs : List String) : Bool :=
  logs.any (fun log =>
    strIncludes log "initialize2" || strIncludes log "InitializeInstruction2")

/-- Signature extraction with the source's fallback chain (lines
284-288): `signature` first, then `signatures[0]`. -/
def extractSignature (tx : GeyserTxInfo) : Option String :=
  tx.signature.orElse (fun _ => tx.signatures.head?)

/-- Model of `MarketScanner.handleGeyserMessage` (lines 257-304).
Returns the updated dedup cache and, when the message survives the
filter, the signature check, and the cache-hit check, the signature for
which `processNewPool` is invoked (`processNewPool` is the only place a
`newToken` event for that transaction can be emitted).  The identity is
inserted by `markPoolProcessed` before `processNewPool` runs, so the
returned cache never depends on the fetch/decode outcome. -/
def handleGeyserMessage (cfg : Config) (m : CacheMap) (msg : GeyserMsg)
    (now : Nat) : CacheMap × Option String :=
  match msg.transaction with
  | none => (m, none)
  | some tx =>
    if tx.logMessages.isEmpty then (m, none)
    else if !hasInitialize2 tx.logMessages then (m, none)
    else
      match extractSignature tx with
      | none => (m, none)
      | some signature =>
        if isPoolProcessed m signature then (m, none)
        else (markPoolProcessed cfg m signature now, some signature)

/-- Trace of repeated `handleGeyserMessage` steps over a delivery
sequence (message paired with its arrival time): records the state after
each step with the signature processed at that step, if any. -/
def scanTrace (cfg : Config) : CacheMap → List (GeyserMsg × Nat) →
    List (CacheMap × Option String)
  | _, [] => []
  | m, (msg, now) :: rest =>
    let r := handleGeyserMessage cfg m msg now
    r :: scanTrace cfg r.1 rest

/-- Repeated `markPoolProcessed` insertions over (signature, time)
pairs. -/
def insertRun (cfg : Config) (m : CacheMap) (sigs : List (String × Nat)) : CacheMap :=
  sigs.foldl (fun acc p => markPoolProcessed cfg acc p.1 p.2) m

/-- Decoded transaction response slice used by the pool parser: the
`meta` presence and error flags, the static account keys, and the
post-transaction lamport balances. -/
structure TxResponse where
  metaPresent : Bool
  metaErr : Bool
  staticAccountKeys : List String
  postBalances : List Nat
  deriving DecidableEq

/-- Model of `MarketScanner.getTokenMetadata` (lines 479-500): symbol
and name are placeholders; decimals come from the mint-read oracle and
default to 9 when that read fails. -/
def getTokenMetadata (decimalsOf : String → Except String Nat)
    (mint : String) : TokenMetadata :=
  match decimalsOf mint with
  | .ok d => { mint := mint, symbol := "UNKNOWN", name := "Unknown Token", decimals := d }
  | .error _ => { mint := mint, symbol := "UNKNOWN", name := "Unknown Token", decimals := 9 }

/-- Model of `MarketScanner.calculateInitialLiquidity` (lines 505-532):
read the SOL vault post-balance, index 9 when the base mint is the
tracked token and 8 otherwise, in lamports converted to SOL; 0 on any
missing data. -/
def calculateInitialLiquidity (tx : TxResponse) (isBaseMintToken : Bool) : ℚ :=
  if !tx.metaPresent then 0
  else
    match tx.postBalances.get? (if isBaseMintToken then 9 else 8) with
    | some b => (b : ℚ) / 1000000000
    | none => 0

/-- Model of `MarketScanner.estimateInitialPrice` (lines 537-544): fixed
150 USD per SOL over a fixed token denominator. -/
def estimateInitialPrice (liquiditySol : ℚ) : ℚ :=
  liquiditySol * 150 / 1000000

/-- Result record of `parsePoolTransaction`. -/
structure PoolInfo where
  mint : String
  poolId : String
  liquiditySol : ℚ
  priceUsdc : ℚ
  tokenMetadata : TokenMetadata
  deriving DecidableEq

/-- Model of `MarketScanner.parsePoolTransaction` (lines 389-474):
position-based decode of the initialize2 account list.  Account 4 is the
pool id (falling back to the signature), accounts 5 and 6 are the base
and quote mints; when the quote mint is SOL the base side is tracked,
when the base mint is SOL the quote side is tracked, and when neither
side is SOL the base mint is tracked by default (lines 444-448). -/
def parsePoolTransaction (decimalsOf : String → Except String Nat)
    (tx : TxResponse) (signature : String) : Option PoolInfo :=
  if !tx.metaPresent || tx.metaErr then none
  else
    let accountKeys := tx.staticAccountKeys
    let poolId := (accountKeys.get? 4).getD signature
    if accountKeys.length ≥ 7 then
      match accountKeys.get? 5, accountKeys.get? 6 with
      | some baseMint, some quoteMint =>
        let pick : String × Bool :=
          if quoteMint == SOL_MINT then (baseMint, true)
          else if baseMint == SOL_MINT then (quoteMint, false)
          else (baseMint, true)
        let liquiditySol := calculateInitialLiquidity tx pick.2
        some { mint := pick.1, poolId := poolId, liquiditySol := liquiditySol
               priceUsdc := estimateInitialPrice liquiditySol
               tokenMetadata := getTokenMetadata decimalsOf pick.1 }
      | _, _ => none
    else none

/-- Emissions of the scanner while one pool is processed. -/
inductive Emission
  | newToken (e : MarketEvent)
  | fastCheck (e : MarketEvent)
  deriving DecidableEq

/-- Model of `MarketScanner.processNewPool` (lines 335-384): fetch the
transaction, parse it, build the `MarketEvent`, emit `fastCheck` first
when the liquidity threshold is met, then always emit `newToken`; every
failure path emits nothing. -/
def processNewPool (cfg : Config)
    (fetchTx : String → Except String (Option TxResponse))
    (decimalsOf : String → Except String Nat)
    (signature : String) (now : Nat) : List Emission :=
  match fetchTx signature with
  | .error _ => []
  | .ok none => []
  | .ok (some tx) =>
    match parsePoolTransaction decimalsOf tx signature with
    | none => []
    | some info =>
      let marketEvent : MarketEvent :=
        { token := info.tokenMetadata, poolId := info.poolId
          initialLiquiditySol := info.liquiditySol
          initialPriceUsdc := info.priceUsdc, timestamp := now }
      (if info.liquiditySol ≥ cfg.fastCheckThreshold
        then [Emission.fastCheck marketEvent] else [])
      ++ [Emission.newToken marketEvent]

/-- Scanner configuration used in the C7 witness. -/
def cfgS : Config := { fastCheckThreshold := 100, cacheSize := 10, cacheTtlMs := 3600000 }

/-- A Geyser message delivering transaction `SIG1` with an initialize2
log line. -/
def msgS : GeyserMsg :=
  { transaction := some
      { signature := some "SIG1"
        signatures := ["SIG1"]
        logMessages := ["Program log: initialize2"] } }

/-- Scanner configuration with dedup capacity 2, for the C8 witness. -/
def cfgS2 : Config := { fastCheckThreshold := 100, cacheSize := 2, cacheTtlMs := 3600000 }

/-- Decoded pool-creation transaction whose base and quote mints are
both non-SOL, for the C10 witness. -/
def txW : TxResponse :=
  { metaPresent := true, metaErr := false
    staticAccountKeys := ["K0", "K1", "K2", "K3", "POOLW", "BASEW", "QUOTEW"]
    postBalances := [] }

/-- Mint-read oracle for the C10 witness. -/
def decimalsW : String → Except String Nat := fun _ => .ok 6

end MarketScanner

/-- C1 (counterexample): `analyzeToken` does throw past its boundary
when the authority read (`getMint`, Guard.ts line 66) fails, because
that `await` is the one chain read not wrapped in a `try`; no
`SecurityReport` is returned. -/
theorem C1_counterexample :
    Guard.analyzeToken "M1" Guard.envMintReadThrows = .error "getMint failed" := rfl

/-- C1 (amended): provided the authority read succeeds, `analyzeToken`
always returns a `SecurityReport`, and an internal failure of any of the
four subsidiary checks degrades that check to its conservative default:
honeypot treated as detected, no pool found, holder concentration 0%,
LP burn 0%. -/
theorem C1_amended_no_throw_after_mint_read (mint : String) (env : GuardEnv)
    (info : MintInfo) (h : env.getMintResult = .ok info) :
    ∃ r : SecurityReport, Guard.analyzeToken mint env = .ok r ∧
      (∀ e, env.honeypotInner = .error e → r.details.isHoneypot = true) ∧
      (∀ e, env.liquidityInner = .error e → r.details.hasLiquidity = false) ∧
      (∀ e, env.top10Inner = .error e → r.details.top10HoldersPercent = 0) ∧
      (∀ e, env.lpBurnInner = .error e → r.details.lpBurnedPercent = 0) := by
  refine ⟨Guard.reportOf mint env info, by rw [Guard.analyzeToken, h], ?_, ?_, ?_, ?_⟩
  · intro e he
    simp [Guard.reportOf, Guard.detectHoneypot, he]
  · intro e he
    simp [Guard.reportOf, Guard.checkRaydiumLiquidity, he]
  · intro e he
    simp [Guard.reportOf, Guard.calculateTop10HoldersPercent, he]
  · intro e he
    simp [Guard.reportOf, Guard.calculateLPBurnedPercent, he]

/-- C1 (witness): the amended theorem applied to a concrete environment
whose four subsidiary checks all throw. -/
theorem C1_witness :
    ∃ r : SecurityReport, Guard.analyzeToken "M1" Guard.envChecksThrow = .ok r ∧
      (∀ e, Guard.envChecksThrow.honeypotInner = .error e → r.details.isHoneypot = true) ∧
      (∀ e, Guard.envChecksThrow.liquidityInner = .error e → r.details.hasLiquidity = false) ∧
      (∀ e, Guard.envChecksThrow.top10Inner = .error e → r.details.top10HoldersPercent = 0) ∧
      (∀ e, Guard.envChecksThrow.lpBurnInner = .error e → r.details.lpBurnedPercent = 0) :=
  C1_amended_no_throw_after_mint_read "M1" Guard.envChecksThrow
    { mintAuthority := none, freezeAuthority := none } rfl

/-- Helper shared by the Guard theorems: a successful `analyzeToken`
call is exactly a successful authority read followed by `reportOf`. -/
theorem Guard.analyzeToken_eq_ok {mint : String} {env : GuardEnv} {r : SecurityReport}
    (h : Guard.analyzeToken mint env = .ok r) :
    ∃ info, env.getMintResult = .ok info ∧ r = Guard.reportOf mint env info := by
  rcases henv : env.getMintResult with e | info <;>
    rw [Guard.analyzeToken, henv] at h
  · exact absurd h (by simp)
  · exact ⟨info, rfl, by simpa using h.symm⟩

/-- Helper for C2: the boolean safety conjunction computed on Guard.ts
line 108 is equivalent to the conjunction of propositions stated over
the capped risk score. -/
theorem isSafe_bool_iff (n : Nat) (hp mr fd hl : Bool) :
    (decide (n < 50) && !hp && mr && fd && hl) = true ↔
      (min n 100 < 50 ∧ hp = false ∧ mr = true ∧ fd = true ∧ hl = true) := by
  cases hp <;> cases mr <;> cases fd <;> cases hl <;>
    simp [min_lt_iff]

/-- C2: in every report returned by the risk analyzer, `isSafe` is true
if and only if the (capped) risk score is below 50, the honeypot check
is negative, both authorities are revoked, and a liquidity pool exists
(Guard.ts line 108). -/
theorem C2_isSafe_iff (mint : String) (env : GuardEnv) (r : SecurityReport)
    (h : Guard.analyzeToken mint env = .ok r) :
    r.isSafe = true ↔
      (r.riskScore < 50 ∧ r.details.isHoneypot = false ∧
        r.details.mintRenounced = true ∧ r.details.freezeDisabled = true ∧
        r.details.hasLiquidity = true) := by
  obtain ⟨info, -, rfl⟩ := Guard.analyzeToken_eq_ok h
  exact isSafe_bool_iff _ _ _ _ _

/-- C2 (witness): the safety equivalence evaluated on the concrete
environment whose subsidiary checks all throw; there the report is
unsafe, matching the right-hand side being false. -/
theorem C2_witness :
    (Guard.reportOf "M1" Guard.envChecksThrow
        { mintAuthority := none, freezeAuthority := none }).isSafe = true ↔
      ((Guard.reportOf "M1" Guard.envChecksThrow
          { mintAuthority := none, freezeAuthority := none }).riskScore < 50 ∧
        (Guard.reportOf "M1" Guard.envChecksThrow
          { mintAuthority := none, freezeAuthority := none }).details.isHoneypot = false ∧
        (Guard.reportOf "M1" Guard.envChecksThrow
          { mintAuthority := none, freezeAuthority := none }).details.mintRenounced = true ∧
        (Guard.reportOf "M1" Guard.envChecksThrow
          { mintAuthority := none, freezeAuthority := none }).details.freezeDisabled = true ∧
        (Guard.reportOf "M1" Guard.envChecksThrow
          { mintAuthority := none, freezeAuthority := none }).details.hasLiquidity = true) :=
  C2_isSafe_iff "M1" Guard.envChecksThrow _ rfl

namespace DecisionCore

/-- Helper: once the liquidity floor and both risk gates pass, the
outcome of `processToken` is decided by the admission condition of
part_001 line 280 alone. -/
theorem processToken_gates_outcome (cfg : Config) (st : Stats)
    (event : MarketEvent) (security : SecurityReport) (fast : Bool)
    (hliq : ¬ event.initialLiquiditySol < cfg.minLiquidity)
    (hrisk : ¬ security.riskScore > cfg.maxRiskScore)
    (hsafe : security.isSafe = true) :
    (processToken cfg st event (.ok security) fast).2 =
      if 70 ≤ calculateFinalScore event security fast ∨
          (fast ∧ 60 ≤ calculateFinalScore event security fast)
      then Outcome.accepted
        { event := event, security := security
          finalScore := calculateFinalScore event security fast
          priority := determinePriority (calculateFinalScore event security fast)
            event.initialLiquiditySol fast }
      else Outcome.rejected event.token.mint "Score insuffisant" := by
  simp [processToken, hliq, hrisk, hsafe]
  split_ifs <;> rfl

end DecisionCore

open DecisionCore in
/-- C3: once an event has passed the liquidity floor and the risk gates,
the admission gate accepts exactly when `finalScore ≥ 70`, or
`finalScore ≥ 60` on the fast path (part_001 line 280); concretely, the
identical 7-SOL event scores 62 on the fast path (clean state, LP burn
0%) and is accepted, and scores 62 on the standard path (LP burn 51%)
and is rejected. -/
theorem C3_fast_path_lower_bar :
    (∀ (cfg : Config) (st : Stats) (event : MarketEvent)
        (security : SecurityReport) (isFastCheck : Bool),
      ¬ event.initialLiquiditySol < cfg.minLiquidity →
      ¬ security.riskScore > cfg.maxRiskScore →
      security.isSafe = true →
      ((∃ t, (processToken cfg st event (.ok security) isFastCheck).2 =
          Outcome.accepted t) ↔
        (70 ≤ calculateFinalScore event security isFastCheck ∨
          (isFastCheck ∧ 60 ≤ calculateFinalScore event security isFastCheck)))) ∧
    (calculateFinalScore c3Event c3SecurityB true = 62 ∧
      (∃ t, (processToken cfg0 st0 c3Event (.ok c3SecurityB) true).2 =
        Outcome.accepted t)) ∧
    (calculateFinalScore c3Event c3SecurityA false = 62 ∧
      (processToken cfg0 st0 c3Event (.ok c3SecurityA) false).2 =
        Outcome.rejected "TOK62" "Score insuffisant") := by
  have hB : calculateFinalScore c3Event c3SecurityB true = 62 := by
    norm_num [calculateFinalScore, jsRound, c3Event, c3SecurityA, c3SecurityB]
  have hA : calculateFinalScore c3Event c3SecurityA false = 62 := by
    norm_num [calculateFinalScore, jsRound, c3Event, c3SecurityA]
  have hliq0 : ¬ c3Event.initialLiquiditySol < cfg0.minLiquidity := by
    norm_num [c3Event, cfg0]
  refine ⟨?_, ⟨hB, ?_⟩, hA, ?_⟩
  · intro cfg st event security isFastCheck hliq hrisk hsafe
    rw [processToken_gates_outcome cfg st event security isFastCheck hliq hrisk hsafe]
    split_ifs with h
    · simp [h]
    · simp [h]
  · have hout := processToken_gates_outcome cfg0 st0 c3Event c3SecurityB true
      hliq0 (by decide) rfl
    rw [hB, if_pos (by norm_num)] at hout
    exact ⟨_, hout⟩
  · have hout := processToken_gates_outcome cfg0 st0 c3Event c3SecurityA false
      hliq0 (by decide) rfl
    rw [hA, if_neg (by norm_num)] at hout
    exact hout

open DecisionCore in
/-- C3 (witness): the admission equivalence applied to the concrete
fast-path score-62 scenario. -/
theorem C3_witness :
    (∃ t, (processToken cfgW st0 c3Event (.ok c3SecurityB) true).2 =
        Outcome.accepted t) ↔
      (70 ≤ calculateFinalScore c3Event c3SecurityB true ∨
        ((true : Bool) ∧ 60 ≤ calculateFinalScore c3Event c3SecurityB true)) :=
  C3_fast_path_lower_bar.1 cfgW st0 c3Event c3SecurityB true
    (lt_irrefl _) (by decide) rfl

open DecisionCore in
/-- C4: every report the risk analyzer returns carries
`riskScore ≤ 100` (a natural number, hence also ≥ 0); the liquidity the
ingestor attaches to an event is never negative (a lamport balance over
10⁹, or the 0 fallback); and for every event with such non-negative
liquidity, the orchestrator's `finalScore` is an integer in `[0, 100]`. -/
theorem C4_score_bounds :
    (∀ (mint : String) (env : GuardEnv) (r : SecurityReport),
      Guard.analyzeToken mint env = .ok r → r.riskScore ≤ 100) ∧
    (∀ (tx : MarketScanner.TxResponse) (isBaseMintToken : Bool),
      0 ≤ MarketScanner.calculateInitialLiquidity tx isBaseMintToken) ∧
    (∀ (event : MarketEvent) (security : SecurityReport) (fast : Bool),
      0 ≤ event.initialLiquiditySol →
      0 ≤ calculateFinalScore event security fast ∧
        calculateFinalScore event security fast ≤ 100) := by
  refine ⟨?_, ?_, ?_⟩
  · intro mint env r h
    obtain ⟨info, -, rfl⟩ := Guard.analyzeToken_eq_ok h
    exact min_le_right _ 100
  · intro tx isBaseMintToken
    rw [MarketScanner.calculateInitialLiquidity]
    by_cases hm : (!tx.metaPresent) = true
    · rw [if_pos hm]
    · rw [if_neg hm]
      rcases hb : tx.postBalances.get? (if isBaseMintToken then 9 else 8) with _ | b <;>
        simp only [hb]
      · exact le_refl 0
      · positivity
  · intro event security fast hl
    unfold calculateFinalScore
    refine ⟨le_min (by norm_num) ?_, min_le_left 100 _⟩
    apply Int.le_floor.mpr
    have h1 : (0 : ℚ) ≤ max 0 (40 - (security.riskScore : ℚ) * (0.4 : ℚ)) :=
      le_max_left 0 _
    have h2 : (0 : ℚ) ≤ min 30 (event.initialLiquiditySol * (0.3 : ℚ)) :=
      le_min (by norm_num) (mul_nonneg hl (by norm_num))
    have h3 : (0 : ℚ) ≤
        (if security.details.mintRenounced && security.details.freezeDisabled
          then (15 : ℚ) else 0) := by positivity
    have h4 : (0 : ℚ) ≤ (if security.details.lpBurnedPercent > 90 then (10 : ℚ)
        else if security.details.lpBurnedPercent > 50 then 5 else 0) := by positivity
    have h5 : (0 : ℚ) ≤ (if fast then (5 : ℚ) else 0) := by positivity
    push_cast
    linarith

open DecisionCore in
/-- C4 (witness): the final-score bounds evaluated on a zero-liquidity
event and the clean score-62 report. -/
theorem C4_witness :
    0 ≤ calculateFinalScore { c3Event with initialLiquiditySol := 0 } c3SecurityA false ∧
      calculateFinalScore { c3Event with initialLiquiditySol := 0 } c3SecurityA false ≤ 100 :=
  C4_score_bounds.2.2 { c3Event with initialLiquiditySol := 0 } c3SecurityA false (le_refl 0)

open DecisionCore in
/-- C5: with everything else fixed, `finalScore` is monotone
non-decreasing in `initialBaseLiquidity` and monotone non-increasing in
`riskScore` (part_001 lines 301-335). -/
theorem C5_monotonicity (event : MarketEvent) (security : SecurityReport)
    (fast : Bool) :
    (∀ l1 l2 : ℚ, l1 ≤ l2 →
      calculateFinalScore { event with initialLiquiditySol := l1 } security fast ≤
        calculateFinalScore { event with initialLiquiditySol := l2 } security fast) ∧
    (∀ r1 r2 : Nat, r1 ≤ r2 →
      calculateFinalScore event { security with riskScore := r2 } fast ≤
        calculateFinalScore event { security with riskScore := r1 } fast) := by
  constructor
  · intro l1 l2 h
    unfold calculateFinalScore jsRound
    refine min_le_min le_rfl (Int.floor_le_floor ?_)
    have : l1 * (0.3 : ℚ) ≤ l2 * (0.3 : ℚ) :=
      mul_le_mul_of_nonneg_right h (by norm_num)
    have := min_le_min (le_refl (30 : ℚ)) this
    simp only
    linarith
  · intro r1 r2 h
    unfold calculateFinalScore jsRound
    refine min_le_min le_rfl (Int.floor_le_floor ?_)
    have hc : (r1 : ℚ) * (0.4 : ℚ) ≤ (r2 : ℚ) * (0.4 : ℚ) :=
      mul_le_mul_of_nonneg_right (by exact_mod_cast h) (by norm_num)
    have : max 0 (40 - (r2 : ℚ) * (0.4 : ℚ)) ≤ max 0 (40 - (r1 : ℚ) * (0.4 : ℚ)) :=
      max_le_max le_rfl (by linarith)
    simp only
    linarith

open DecisionCore in
/-- C5 (witness): liquidity monotonicity evaluated at 1 ≤ 2 SOL. -/
theorem C5_witness :
    calculateFinalScore { c3Event with initialLiquiditySol := 1 } c3SecurityA false ≤
      calculateFinalScore { c3Event with initialLiquiditySol := 2 } c3SecurityA false :=
  (C5_monotonicity c3Event c3SecurityA false).1 1 2 one_le_two

open DecisionCore in
/-- C6: on the clean-asset scenario (liquidity 45, risk score 15, both
authorities revoked, LP burn 100%, standard path) the scoring step gives
`finalScore = 73` (34 + 13.5 + 15 + 10 = 72.5 rounded up), which meets
the `≥ 70` bar, and the priority is MEDIUM because liquidity is below 50
and the event is not fast-path. -/
theorem C6_clean_asset_scenario :
    calculateFinalScore c6Event c6Security false = 73 ∧
    70 ≤ calculateFinalScore c6Event c6Security false ∧
    determinePriority (calculateFinalScore c6Event c6Security false)
      c6Event.initialLiquiditySol false = Priority.MEDIUM := by
  have h : calculateFinalScore c6Event c6Security false = 73 := by
    norm_num [calculateFinalScore, jsRound, c6Event, c6Security]
  refine ⟨h, by rw [h]; norm_num, ?_⟩
  rw [h]
  norm_num [determinePriority, c6Event]

open DecisionCore in
/-- C9: `processToken` preserves the counter invariant
`tokensProcessed = tokensAccepted + tokensRejected` on every path
(including the caught-error path), and `getStats` reports
`acceptanceRate` as `tokensAccepted / tokensProcessed × 100` with 0
instead of a division by zero. -/
theorem C9_counter_invariant :
    (∀ (cfg : Config) (st : Stats) (event : MarketEvent)
        (g : Except String SecurityReport) (fast : Bool),
      st.tokensProcessed = st.tokensAccepted + st.tokensRejected →
      (processToken cfg st event g fast).1.tokensProcessed =
        (processToken cfg st event g fast).1.tokensAccepted +
          (processToken cfg st event g fast).1.tokensRejected) ∧
    (∀ st : Stats, (getStats st).acceptanceRate =
      if st.tokensProcessed = 0 then 0
      else (st.tokensAccepted : ℚ) / (st.tokensProcessed : ℚ) * 100) := by
  constructor
  · intro cfg st event g fast h
    rcases g with e | sec <;>
      simp only [processToken, rejectToken] <;>
      split_ifs <;> simp <;> omega
  · intro st
    rcases Nat.eq_zero_or_pos st.tokensProcessed with h | h
    · simp [getStats, h]
    · simp [getStats, h, Nat.pos_iff_ne_zero.mp h]

open DecisionCore in
/-- C9 (witness): the counter invariant applied to a fresh state and the
caught-error path. -/
theorem C9_witness :
    (processToken cfg0 st0 c3Event (.error "boom") false).1.tokensProcessed =
      (processToken cfg0 st0 c3Event (.error "boom") false).1.tokensAccepted +
        (processToken cfg0 st0 c3Event (.error "boom") false).1.tokensRejected :=
  C9_counter_invariant.1 cfg0 st0 c3Event (.error "boom") false rfl

namespace MarketScanner

/-- Cache membership agrees with `isPoolProcessed`. -/
theorem isPoolProcessed_iff (m : CacheMap) (t : String) :
    isPoolProcessed m t = true ↔ t ∈ cacheKeys m := by
  simp [isPoolProcessed, cacheKeys, List.any_eq_true, List.mem_map]

/-- A step that processes `t` starts from a cache miss on `t`, and its
updated cache is exactly the insertion of `t`. -/
theorem handle_emit_shape {cfg : Config} {m : CacheMap} {msg : GeyserMsg}
    {now : Nat} {t : String}
    (h : (handleGeyserMessage cfg m msg now).2 = some t) :
    isPoolProcessed m t = false ∧
      (handleGeyserMessage cfg m msg now).1 = markPoolProcessed cfg m t now := by
  rcases hmsg : msg.transaction with _ | tx <;>
    simp only [handleGeyserMessage, hmsg] at h ⊢
  · simp at h
  · rcases hsig : extractSignature tx with _ | s <;>
      simp only [hsig] at h ⊢ <;>
      (split_ifs at h ⊢ <;> simp_all)

/-- Inserting `k` leaves `k` among the cache keys, whichever `Map.set`
branch runs. -/
theorem mem_keys_mapSet (m : CacheMap) (k : String) (v : CacheEntry) :
    k ∈ cacheKeys (mapSet m k v) := by
  unfold mapSet
  split_ifs with h
  · obtain ⟨p, hp, hpk⟩ := List.any_eq_true.mp h
    simp only [cacheKeys, List.map_map, List.mem_map, Function.comp]
    exact ⟨p, hp, by rw [if_pos hpk]⟩
  · simp [cacheKeys]

/-- `markPoolProcessed` always inserts its key. -/
theorem mem_keys_markPoolProcessed (cfg : Config) (m : CacheMap)
    (k : String) (now : Nat) :
    k ∈ cacheKeys (markPoolProcessed cfg m k now) :=
  mem_keys_mapSet _ k _

/-- While `t` stays cached at every state of the run, starting from a
state containing `t`, no step of the run processes `t`. -/
theorem no_reprocess_while_cached (cfg : Config) (t : String) :
    ∀ (msgs : List (GeyserMsg × Nat)) (m : CacheMap),
      t ∈ cacheKeys m →
      (∀ s ∈ (scanTrace cfg m msgs).map Prod.fst, t ∈ cacheKeys s) →
      ((scanTrace cfg m msgs).map Prod.snd).count (some t) = 0
  | [], _, _, _ => rfl
  | (msg, now) :: rest, m, hm, hall => by
    rw [scanTrace]
    simp only [List.map_cons, List.count_cons]
    have hne : (handleGeyserMessage cfg m msg now).2 ≠ some t := fun he =>
      absurd (isPoolProcessed_iff m t |>.mpr hm) (by simp [(handle_emit_shape he).1])
    rw [no_reprocess_while_cached cfg t rest _
      (hall _ (by simp [scanTrace, List.mem_cons]))
      (fun s hs => hall s (by simp only [scanTrace, List.map_cons]; exact List.mem_cons_of_mem _ hs))]
    simp [hne]

end MarketScanner

open MarketScanner in
/-- C7 (dedup invariant): along any delivery sequence, while the
transaction identity `t` remains in the dedup cache at every state of
the run, `t` is processed — and hence its `newToken` market event
emitted — at most once, no matter how often the stream redelivers it;
and whenever a step does process `t`, the cache already contains `t` at
the end of that step: the insertion happens inside
`handleGeyserMessage`, before the transaction fetch and decode of
`processNewPool` begin, independent of their outcome. -/
theorem C7_dedup_invariant :
    (∀ (cfg : Config) (m0 : CacheMap) (msgs : List (GeyserMsg × Nat)) (t : String),
      (∀ s ∈ (scanTrace cfg m0 msgs).map Prod.fst, t ∈ cacheKeys s) →
      ((scanTrace cfg m0 msgs).map Prod.snd).count (some t) ≤ 1) ∧
    (∀ (cfg : Config) (m : CacheMap) (msg : GeyserMsg) (now : Nat) (t : String),
      (handleGeyserMessage cfg m msg now).2 = some t →
      t ∈ cacheKeys (handleGeyserMessage cfg m msg now).1) := by
  constructor
  · intro cfg m0 msgs t
    induction msgs generalizing m0 with
    | nil => intro _; simp [scanTrace]
    | cons p rest ih =>
      obtain ⟨msg, now⟩ := p
      intro hall
      rw [scanTrace]
      simp only [List.map_cons, List.count_cons]
      rcases he : (handleGeyserMessage cfg m0 msg now).2 with _ | s
      · have := ih (handleGeyserMessage cfg m0 msg now).1
          (fun s hs => hall s
            (by simp only [scanTrace, List.map_cons]; exact List.mem_cons_of_mem _ hs))
        simpa using this
      · by_cases hst : s = t
        · subst hst
          have hmem : s ∈ cacheKeys (handleGeyserMessage cfg m0 msg now).1 :=
            (handle_emit_shape he).2 ▸ mem_keys_markPoolProcessed cfg m0 s now
          rw [no_reprocess_while_cached cfg s rest _ hmem
            (fun st hs => hall st
              (by simp only [scanTrace, List.map_cons]; exact List.mem_cons_of_mem _ hs))]
          simp
        · have := ih (handleGeyserMessage cfg m0 msg now).1
            (fun st hs => hall st
              (by simp only [scanTrace, List.map_cons]; exact List.mem_cons_of_mem _ hs))
          simpa [hst] using this
  · intro cfg m msg now t h
    exact (handle_emit_shape h).2 ▸ mem_keys_markPoolProcessed cfg m t now

open MarketScanner in
/-- C7 (witness): the at-most-once bound evaluated on a run in which the
stream delivers the same transaction twice. -/
theorem C7_witness :
    ((scanTrace cfgS [] [(msgS, 0), (msgS, 1)]).map Prod.snd).count (some "SIG1") ≤ 1 :=
  C7_dedup_invariant.1 cfgS [] [(msgS, 0), (msgS, 1)] "SIG1" (by decide)

namespace MarketScanner

/-- Inserting fresh, pairwise-distinct identities that fit below the
capacity appends them in insertion order with no eviction. -/
theorem insertRun_no_evict (cfg : Config) :
    ∀ (sigs : List (String × Nat)) (m : CacheMap),
      m.length + sigs.length ≤ cfg.cacheSize →
      (∀ p ∈ sigs, isPoolProcessed m p.1 = false) →
      (sigs.map Prod.fst).Nodup →
      insertRun cfg m sigs =
        m ++ sigs.map (fun p => (p.1, { poolId := p.1, timestamp := p.2 })) := by
  intro sigs
  induction sigs with
  | nil => intro m _ _ _; simp [insertRun]
  | cons p rest ih =>
    intro m hlen hfresh hnodup
    obtain ⟨k, n⟩ := p
    have hlen' : m.length + (rest.length + 1) ≤ cfg.cacheSize := by
      simpa using hlen
    have hfk : m.any (fun q => q.1 == k) = false :=
      hfresh (k, n) (List.mem_cons_self _ _)
    have hmark : markPoolProcessed cfg m k n =
        m ++ [(k, { poolId := k, timestamp := n })] := by
      have hev : ¬ m.length ≥ cfg.cacheSize := by omega
      simp only [markPoolProcessed]
      rw [if_neg hev]
      simp only [mapSet]
      rw [if_neg (by simp [hfk])]
    have hstep : insertRun cfg m ((k, n) :: rest) =
        insertRun cfg (markPoolProcessed cfg m k n) rest := rfl
    rw [hstep, hmark, ih]
    · simp
    · simp only [List.length_append, List.length_cons, List.length_nil]
      omega
    · intro q hq
      have h1 : m.any (fun r => r.1 == q.1) = false :=
        hfresh q (List.mem_cons_of_mem _ hq)
      have h2 : q.1 ≠ k := by
        intro he
        apply (List.nodup_cons.mp hnodup).1
        rw [← he]
        show q.1 ∈ List.map Prod.fst rest
        exact List.mem_map_of_mem Prod.fst hq
      simp [isPoolProcessed, List.any_append, h1, h2, Ne.symm h2]
    · exact (List.nodup_cons.mp hnodup).2

end MarketScanner

open MarketScanner in
/-- C8: from an empty dedup cache, inserting `cacheSize + 1` distinct
transaction identities evicts exactly the single oldest-inserted entry —
the final cache holds precisely the later `cacheSize` identities, in
insertion order — and a subsequent redelivery of the evicted identity
misses the cache and is processed (re-emitted) as new. -/
theorem C8_cache_overflow (cfg : Config) (t0 : String) (n0 : Nat)
    (rest : List (String × Nat)) (lastSig : String × Nat)
    (hlen : ((t0, n0) :: rest).length = cfg.cacheSize)
    (hnodup : ((((t0, n0) :: rest) ++ [lastSig]).map Prod.fst).Nodup) :
    cacheKeys (insertRun cfg [] (((t0, n0) :: rest) ++ [lastSig])) =
      rest.map Prod.fst ++ [lastSig.1] ∧
    isPoolProcessed (insertRun cfg [] (((t0, n0) :: rest) ++ [lastSig])) t0 = false ∧
    (∀ (msg : GeyserMsg) (tx : GeyserTxInfo) (now : Nat),
      msg.transaction = some tx →
      tx.logMessages.isEmpty = false →
      hasInitialize2 tx.logMessages = true →
      extractSignature tx = some t0 →
      (handleGeyserMessage cfg
        (insertRun cfg [] (((t0, n0) :: rest) ++ [lastSig])) msg now).2 = some t0) := by
  obtain ⟨tl, nl⟩ := lastSig
  rw [List.map_append, List.map_cons] at hnodup
  have hnd := List.nodup_append.mp hnodup
  have hfrontnd : (t0 :: rest.map Prod.fst).Nodup := by
    simpa using hnd.1
  have htl : tl ∉ t0 :: rest.map Prod.fst := by
    intro hmem
    exact hnd.2.2 hmem (by simp)
  have hfront : insertRun cfg [] ((t0, n0) :: rest) =
      ((t0, n0) :: rest).map (fun p => (p.1, { poolId := p.1, timestamp := p.2 })) := by
    have h := insertRun_no_evict cfg ((t0, n0) :: rest) []
      (by simp [hlen]) (fun p _ => rfl) (by simpa using hfrontnd)
    simpa using h
  have hsplit : insertRun cfg [] (((t0, n0) :: rest) ++ [(tl, nl)]) =
      markPoolProcessed cfg (insertRun cfg [] ((t0, n0) :: rest)) tl nl := by
    simp [insertRun, List.foldl_append]
  have htl' : tl ∉ rest.map Prod.fst := fun hm => htl (List.mem_cons_of_mem _ hm)
  have hany : ¬ ((rest.map (fun p =>
        (p.1, ({ poolId := p.1, timestamp := p.2 } : CacheEntry)))).any
      (fun p => p.1 == tl) = true) := by
    rw [Bool.not_eq_true, List.any_eq_false]
    intro p hp
    obtain ⟨q, hq, rfl⟩ := List.mem_map.mp hp
    simp only [beq_iff_eq]
    intro he
    apply htl'
    rw [← he]
    exact List.mem_map_of_mem Prod.fst hq
  have hfinal : insertRun cfg [] (((t0, n0) :: rest) ++ [(tl, nl)]) =
      rest.map (fun p => (p.1, { poolId := p.1, timestamp := p.2 })) ++
        [(tl, { poolId := tl, timestamp := nl })] := by
    rw [hsplit, hfront]
    have hlen2 : (((t0, n0) :: rest).map (fun p =>
        (p.1, ({ poolId := p.1, timestamp := p.2 } : CacheEntry)))).length ≥
          cfg.cacheSize := by
      simp [← hlen]
    simp only [markPoolProcessed]
    rw [if_pos hlen2]
    simp only [List.map_cons, mapSet]
    rw [if_neg hany]
  have hkeys : cacheKeys (insertRun cfg [] (((t0, n0) :: rest) ++ [(tl, nl)])) =
      rest.map Prod.fst ++ [tl] := by
    rw [hfinal]
    simp [cacheKeys]
  have ht0 : isPoolProcessed
      (insertRun cfg [] (((t0, n0) :: rest) ++ [(tl, nl)])) t0 = false := by
    rw [Bool.eq_false_iff]
    intro habs
    have hmem := (isPoolProcessed_iff _ _).mp habs
    rw [hkeys] at hmem
    rcases List.mem_append.mp hmem with hm | hm
    · exact (List.nodup_cons.mp hfrontnd).1 hm
    · have heq : t0 = tl := by simpa using hm
      rw [← heq] at htl
      exact htl (List.mem_cons_self t0 _)
  refine ⟨hkeys, ht0, ?_⟩
  intro msg tx now hmsg hlogs hinit hsig
  have ht0' := ht0
  simp only [List.cons_append] at ht0'
  simp [handleGeyserMessage, hmsg, hlogs, hinit, hsig, ht0, ht0']

open MarketScanner in
/-- C8 (witness): capacity 2, identities a, b, c inserted in that order:
a is evicted, b and c remain, and a redelivery of a is processed. -/
theorem C8_witness :
    cacheKeys (insertRun cfgS2 [] ((("a", (0 : Nat)) :: [("b", 1)]) ++ [("c", 2)])) =
      [("b", (1 : Nat))].map Prod.fst ++ ["c"] ∧
    isPoolProcessed
      (insertRun cfgS2 [] ((("a", (0 : Nat)) :: [("b", 1)]) ++ [("c", 2)])) "a" = false ∧
    (∀ (msg : GeyserMsg) (tx : GeyserTxInfo) (now : Nat),
      msg.transaction = some tx →
      tx.logMessages.isEmpty = false →
      hasInitialize2 tx.logMessages = true →
      extractSignature tx = some "a" →
      (handleGeyserMessage cfgS2
        (insertRun cfgS2 [] ((("a", (0 : Nat)) :: [("b", 1)]) ++ [("c", 2)])) msg now).2 =
        some "a") :=
  C8_cache_overflow cfgS2 "a" 0 [("b", 1)] ("c", 2) rfl (by decide)

namespace MarketScanner

/-- The metadata record always carries the requested mint, whether or
not the mint read succeeds. -/
theorem getTokenMetadata_mint (decimalsOf : String → Except String Nat)
    (mint : String) : (getTokenMetadata decimalsOf mint).mint = mint := by
  unfold getTokenMetadata
  cases decimalsOf mint <;> rfl

end MarketScanner

open MarketScanner in
/-- C10: when a decoded pool-creation transaction has neither account 5
(base mint) nor account 6 (quote mint) equal to the SOL mint, the parser
does not skip the transaction: it tracks the base-mint side as the asset
by default (MarketScanner.ts lines 444-448), and `processNewPool` still
emits a `newToken` market-open event for that asset. -/
theorem C10_non_sol_pool_tracked (decimalsOf : String → Except String Nat)
    (tx : TxResponse) (signature base quote : String)
    (hmeta : tx.metaPresent = true) (herr : tx.metaErr = false)
    (hbase : tx.staticAccountKeys.get? 5 = some base)
    (hquote : tx.staticAccountKeys.get? 6 = some quote)
    (hbs : base ≠ SOL_MINT) (hqs : quote ≠ SOL_MINT) :
    ∃ info : PoolInfo,
      parsePoolTransaction decimalsOf tx signature = some info ∧
      info.mint = base ∧
      (∀ (cfg : Config) (fetchTx : String → Except String (Option TxResponse)) (now : Nat),
        fetchTx signature = .ok (some tx) →
        ∃ e : MarketEvent,
          Emission.newToken e ∈ processNewPool cfg fetchTx decimalsOf signature now ∧
          e.token.mint = base) := by
  have hlen : tx.staticAccountKeys.length ≥ 7 := by
    have h6 : 6 < tx.staticAccountKeys.length := by
      by_contra hc
      rw [List.get?_eq_none.mpr (by omega)] at hquote
      exact Option.noConfusion hquote
    omega
  have hparse : parsePoolTransaction decimalsOf tx signature = some
      { mint := base
        poolId := (tx.staticAccountKeys.get? 4).getD signature
        liquiditySol := calculateInitialLiquidity tx true
        priceUsdc := estimateInitialPrice (calculateInitialLiquidity tx true)
        tokenMetadata := getTokenMetadata decimalsOf base } := by
    simp only [parsePoolTransaction, hmeta, herr, Bool.not_true, Bool.false_or]
    rw [if_neg (by simp), if_pos hlen, hbase, hquote]
    simp only [beq_eq_false_iff_ne.mpr hqs, beq_eq_false_iff_ne.mpr hbs]
    simp
  refine ⟨_, hparse, rfl, ?_⟩
  intro cfg fetchTx now hfetch
  refine ⟨{ token := getTokenMetadata decimalsOf base
            poolId := (tx.staticAccountKeys.get? 4).getD signature
            initialLiquiditySol := calculateInitialLiquidity tx true
            initialPriceUsdc := estimateInitialPrice (calculateInitialLiquidity tx true)
            timestamp := now }, ?_, getTokenMetadata_mint decimalsOf base⟩
  simp [processNewPool, hfetch, hparse]

open MarketScanner in
/-- C10 (witness): the default-tracking property evaluated on a concrete
non-SOL pool transaction. -/
theorem C10_witness :
    ∃ info : PoolInfo,
      parsePoolTransaction decimalsW txW "SIGW" = some info ∧
      info.mint = "BASEW" ∧
      (∀ (cfg : Config) (fetchTx : String → Except String (Option TxResponse)) (now : Nat),
        fetchTx "SIGW" = .ok (some txW) →
        ∃ e : MarketEvent,
          Emission.newToken e ∈ processNewPool cfg fetchTx decimalsW "SIGW" now ∧
          e.token.mint = "BASEW") :=
  C10_non_sol_pool_tracked decimalsW txW "SIGW" "BASEW" "QUOTEW" rfl rfl rfl rfl
    (by decide) (by decide)

end Apex
